import Mathlib

/-!
Verification development for the map chart's projection / zoom / pan core
(`src/src/.internal/charts/map/MapChart.ts`).

Numbers are modelled as exact rationals (`ℚ`): the source computes with IEEE
doubles, and every claim checked here is an algebraic identity that is exact
in ideal arithmetic ("within floating-point tolerance" in the spec).

The d3-geo projection object is external to the repository.  It is modelled
by its documented interface: a projection with scale `k`, translate `t` and
rotation `r` maps a geographic point `g` to `t + k • raw r g`, where `raw` is
the projection's unit-scale forward function (absorbing d3's raw projection,
its radians conversion and stream orientation), and the inverse, when the
projection has one, maps `p` to `rawInvert r ((p - t) / k)`.  Both directions
are `Option`-valued: d3 returns `null`/`undefined` outside the domain.

`JS Math.hypot` (Euclidean norm, used by the pinch and drag handlers) is a
host-library function, passed in as an abstract parameter `hyp`; theorems
that need its value at a concrete span take that value as a hypothesis.
-/

namespace MapSpec

/-- A screen point, `IPoint` of the source. -/
structure Point where
  x : ℚ
  y : ℚ
deriving DecidableEq

/-- A geographic point, `IGeoPoint` of the source. -/
structure GeoPoint where
  longitude : ℚ
  latitude : ℚ
deriving DecidableEq

/-- A three-axis projection rotation `[rotationX, rotationY, rotationZ]`. -/
structure Rotation where
  rx : ℚ
  ry : ℚ
  rz : ℚ
deriving DecidableEq

/-- Geographic bounds `{left, right, top, bottom}` in degrees. -/
structure GeoBounds where
  left : ℚ
  right : ℚ
  top : ℚ
  bottom : ℚ
deriving DecidableEq

/-- An opaque GeoJSON geometry: the core only aggregates geometries into a
collection and hands them to d3; their content never matters here. -/
structure Geometry where
  gid : ℕ
deriving DecidableEq

/-- The d3 `GeoProjection` object (external collaborator), modelled by its
interface: mutable scale / translate / rotation plus the pluggable
unit-scale forward `raw` and optional inverse `rawInvert` (a projection
without an `invert` member has `rawInvert = none`; one without a `rotate`
member has `hasRotate = false`). -/
structure Proj where
  raw : Rotation → GeoPoint → Option Point
  rawInvert : Option (Rotation → Point → Option GeoPoint)
  hasRotate : Bool
  scale : ℚ
  translate : Point
  rotation : Rotation

/-- Forward application `projection([lon, lat])` of a d3 projection:
`t + k • raw r g`, `none` when the point is outside the domain. -/
def projApply (p : Proj) (g : GeoPoint) : Option Point :=
  (p.raw p.rotation g).map fun r =>
    ⟨p.translate.x + p.scale * r.x, p.translate.y + p.scale * r.y⟩

/-- Inverse application `projection.invert([x, y])` of a d3 projection:
`rawInvert r ((pt - t) / k)`, `none` when the projection has no inverse or
the inversion yields no result. -/
def projInvertPt (p : Proj) (pt : Point) : Option GeoPoint :=
  match p.rawInvert with
  | some inv =>
      inv p.rotation
        ⟨(pt.x - p.translate.x) / p.scale, (pt.y - p.translate.y) / p.scale⟩
  | none => none

/-- Pan mode of the `panX` / `panY` settings: `"none"`, `"rotateX"/"rotateY"`
or `"translateX"/"translateY"`. -/
inductive PanMode
  | modeNone
  | rotate
  | translate
deriving DecidableEq

/-- The `MapChart` state relevant to the claims: the public settings the
handlers read and write (optional, with the source's per-call-site
defaults), the private setting `mapScale`, the instance fields of the class,
and the d3 projection object the reconciliation pass mutates.
`width`/`height` are the chart's outer size, `innerW`/`innerH` the padded
inner size, `seriesInnerW`/`seriesInnerH` the series container's inner size.
`eventsEnabled` models `this.events.isEnabled("geoboundschanged")`. -/
structure MapChart where
  proj : Proj
  zoomLevel : Option ℚ
  translateX : Option ℚ
  translateY : Option ℚ
  rotationX : Option ℚ
  rotationY : Option ℚ
  rotationZ : Option ℚ
  minZoomLevel : Option ℚ
  maxZoomLevel : Option ℚ
  zoomStep : Option ℚ
  maxPanOut : Option ℚ
  panX : Option PanMode
  panY : Option PanMode
  mapScale : ℚ
  width : ℚ
  height : ℚ
  innerW : ℚ
  innerH : ℚ
  seriesInnerW : ℚ
  seriesInnerH : ℚ
  geometryColection : List Geometry
  mapBounds : Point × Point
  centroid : Point
  geoCentroid : GeoPoint
  geoBounds : GeoBounds
  prevGeoBounds : GeoBounds
  dispatchBounds : Bool
  eventsEnabled : Bool
  centerLocation : Option GeoPoint
  downZoomLevel : ℚ
  downTranslateX : Option ℚ
  downTranslateY : Option ℚ
  downRotationX : Option ℚ
  downRotationY : Option ℚ
  pLon : ℚ
  pLat : ℚ

/-- `MapChart.convert` (source lines 660-670): forward-project a geographic
point, falling back to `{x: 0, y: 0}` when the projection returns no
result.  Total by construction: it never throws. -/
def convert (st : MapChart) (point : GeoPoint) : Point :=
  (projApply st.proj point).getD ⟨0, 0⟩

/-- `MapChart.invert` (source lines 644-655): inverse-project a screen
point, falling back to `{longitude: 0, latitude: 0}` when the projection has
no inverse or the inversion yields no result.  Total by construction. -/
def invert (st : MapChart) (point : Point) : GeoPoint :=
  match projInvertPt st.proj point with
  | some ll => ⟨ll.longitude, ll.latitude⟩
  | none => ⟨0, 0⟩

/-- Modelled from the spec: `$math.fitToRange` (`core/util/Math.ts` is not
among the staged sources); the spec describes it as
`clamp(z, minZoomLevel, maxZoomLevel)`. -/
def fitToRange (value lo hi : ℚ) : ℚ :=
  min (max value lo) hi

/-- `MapChart.zoomToPoint` (source lines 914-949), with the three
coordinated animations replaced by their end state: the value each of
`translateX`, `translateY`, `zoomLevel` holds once its animation has reached
its target.  Note the clamp to `[minZoomLevel, maxZoomLevel]` is guarded by
`if (level)`: a zero (falsy) `level` is not clamped. -/
def zoomToPoint (st : MapChart) (point : Point) (level : ℚ) (center : Bool) : MapChart :=
  let level := if level ≠ 0 then
      fitToRange level ((st.minZoomLevel).getD 1) ((st.maxZoomLevel).getD 32)
    else level
  let zoomLevel := (st.zoomLevel).getD 1
  let x := point.x
  let y := point.y
  let tx := (st.translateX).getD 0
  let ty := (st.translateY).getD 0
  let cx := if center then st.width / 2 else x
  let cy := if center then st.height / 2 else y
  let xx := cx - ((x - tx) / zoomLevel * level)
  let yy := cy - ((y - ty) / zoomLevel * level)
  { st with translateX := some xx, translateY := some yy, zoomLevel := some level }

/-- `MapChart.zoomToGeoPoint` (source lines 959-964): the converted point is
always an object (truthy in JS), so `zoomToPoint` is always reached. -/
def zoomToGeoPoint (st : MapChart) (geoPoint : GeoPoint) (level : ℚ) (center : Bool) : MapChart :=
  zoomToPoint st (convert st geoPoint) level center

/-- `MapChart.zoomIn` (source lines 969-971); the omitted `center` argument
is `undefined`, i.e. `false`. -/
def zoomIn (st : MapChart) : MapChart :=
  zoomToPoint st ⟨st.width / 2, st.height / 2⟩
    ((st.zoomLevel).getD 1 * (st.zoomStep).getD 2) false

/-- `MapChart.zoomOut` (source lines 976-978). -/
def zoomOut (st : MapChart) : MapChart :=
  zoomToPoint st ⟨st.width / 2, st.height / 2⟩
    ((st.zoomLevel).getD 1 / (st.zoomStep).getD 2) false

/-- `MapChart._handleWheelZoom` (source lines 849-863). -/
def handleWheelZoom (st : MapChart) (delta : ℚ) (point : Point) : MapChart :=
  let step := (st.zoomStep).getD 2
  let zoomLevel := (st.zoomLevel).getD 1
  let newZoomLevel :=
    if delta > 0 then zoomLevel / step
    else if delta < 0 then zoomLevel * step
    else zoomLevel
  if newZoomLevel ≠ zoomLevel then zoomToPoint st point newZoomLevel false else st

/-- Modelled from the spec: `$mapUtils.getGeoBounds` (`MapUtils.ts` is not
among the staged sources).  The naive enclosing rectangle (computed by
d3-geo's `geoBounds`, external) is taken as input; per the spec the function
detects `right < left` (antimeridian wrap or malformed input) and
substitutes the full `[-180, 180]` longitude range. -/
def getGeoBounds (naive : GeoBounds) : GeoBounds :=
  if naive.right < naive.left then { naive with left := -180, right := 180 } else naive

/-- The environment of external collaborators a reconciliation pass
consults: d3's `fitSize` (its resulting scale and translate), `geoPath
.bounds`, `geoBounds` (prior to the antimeridian normalization) and
`geoCentroid`, each a pure function of the geometry collection, and the
aggregate geometry list the child series currently expose. -/
structure Env where
  fitScale : List Geometry → ℚ → ℚ → ℚ
  fitTranslate : List Geometry → ℚ → ℚ → Point
  pathBounds : List Geometry → Point × Point
  naiveGeoBounds : List Geometry → GeoBounds
  centroidOf : List Geometry → GeoPoint
  seriesGeometries : List Geometry

/-- The geographic bounds of a geometry collection as the chart computes
them: d3's naive rectangle normalized across the antimeridian
(spec's `computeGeoBounds`). -/
def computeGeoBounds (env : Env) (coll : List Geometry) : GeoBounds :=
  getGeoBounds (env.naiveGeoBounds coll)

/-- Modelled from the spec: `$math.round(value, 3)` (`core/util/Math.ts` is
not among the staged sources); the spec says bounds are rounded to 3 decimal
places. -/
def round3 (value : ℚ) : ℚ :=
  ((round (value * 1000) : ℤ) : ℚ) / 1000

/-- All four geographic bounds rounded to 3 decimal places
(source lines 452-455). -/
def roundBounds (b : GeoBounds) : GeoBounds :=
  ⟨round3 b.left, round3 b.right, round3 b.top, round3 b.bottom⟩

/-- `MapChart._fitMap` (source lines 433-465): `fitSize` the projection to
the inner viewport, store the fit scale as the private `mapScale` and the
fit translate as `translateX`/`translateY` (raw, no dirty flags), refresh
the derived centroid / screen bounds / geo bounds, and, when the collection
is non-empty, round the geo bounds to 3 decimals and arm the
`geoboundschanged` dispatch flag iff they differ from the bounds recorded at
the previous change (`JSON.stringify` comparison = field-wise equality). -/
def fitMap (st : MapChart) (env : Env) : MapChart :=
  let newScale := env.fitScale st.geometryColection st.innerW st.innerH
  let ftr := env.fitTranslate st.geometryColection st.innerW st.innerH
  let st1 := { st with
    proj := { st.proj with scale := newScale, translate := ftr },
    mapScale := newScale,
    translateX := some ftr.x,
    translateY := some ftr.y,
    centroid := ftr,
    mapBounds := env.pathBounds st.geometryColection,
    geoCentroid := env.centroidOf st.geometryColection,
    geoBounds := computeGeoBounds env st.geometryColection }
  if st1.geometryColection.length > 0 then
    let rounded := roundBounds st1.geoBounds
    let st2 := { st1 with geoBounds := rounded }
    if rounded ≠ st2.prevGeoBounds then
      { st2 with dispatchBounds := true, prevGeoBounds := rounded }
    else st2
  else st1

/-- The size/padding-dirty branch of `MapChart._prepareChildren` (source
lines 327-355): refit to the inner viewport, restore `scale = mapScale *
zoomLevel`, and, when a locked center location is set and projects, adjust
the translate so that location stays at the viewport center. -/
def sizeStep (st : MapChart) (env : Env) : MapChart :=
  let w := st.innerW
  let h := st.innerH
  let hw := w / 2
  let hh := h / 2
  let newScale := env.fitScale st.geometryColection w h
  let ftr := env.fitTranslate st.geometryColection w h
  let st1 := { st with
    proj := { st.proj with scale := newScale * (st.zoomLevel).getD 1, translate := ftr },
    mapScale := newScale }
  match st1.centerLocation with
  | some c =>
    match projApply st1.proj c with
    | some xy =>
        let translate := st1.proj.translate
        let xx := hw - (xy.x - translate.x)
        let yy := hh - (xy.y - translate.y)
        { st1 with
          proj := { st1.proj with translate := ⟨xx, yy⟩ },
          translateX := some xx,
          translateY := some yy }
    | none => st1
  | none => st1

/-- Which settings are dirty at the start of a reconciliation pass.
`geometries` is the `_dirtyGeometries` instance flag (reset by `_clearDirty`
after every pass, so a pass with no intervening changes has every flag
false); `size` covers the private width/height and padding settings. -/
structure Dirty where
  projection : Bool
  geometries : Bool
  size : Bool
  zoomLevel : Bool
  translateX : Bool
  translateY : Bool
  rotation : Bool
deriving DecidableEq

/-- A pass with nothing dirty. -/
def cleanDirty : Dirty :=
  ⟨false, false, false, false, false, false, false⟩

/-- The dirty set right after `zoomToPoint` or `_handlePinch` commit their
settings: `zoomLevel`, `translateX` and `translateY`. -/
def zoomPanDirty : Dirty :=
  ⟨false, false, false, true, true, true, false⟩

/-- The fit phase of `MapChart._prepareChildren` (source lines 307-355), in
source order: projection dirty → `_fitMap`; geometries dirty → rebuild the
aggregate collection from the series' geometries and `_fitMap`;
size/padding dirty → the refit-and-recenter branch. -/
def prepareFit (st : MapChart) (d : Dirty) (env : Env) : MapChart :=
  let st1 := if d.projection then fitMap st env else st
  let st2 := if d.geometries then
      fitMap { st1 with geometryColection := env.seriesGeometries } env
    else st1
  if d.size then sizeStep st2 env else st2

/-- The setting-application phase of `MapChart._prepareChildren` (source
lines 380-395): zoomLevel dirty → `scale := mapScale * zoomLevel`;
translateX or translateY dirty → retranslate (defaults `width/2`,
`height/2`); rotation dirty, and only if the projection has a `rotate`
member → rerotate. -/
def applyDirtySettings (st : MapChart) (d : Dirty) : MapChart :=
  let st4 := if d.zoomLevel then
      { st with proj := { st.proj with scale := st.mapScale * (st.zoomLevel).getD 1 } }
    else st
  let st5 := if d.translateX || d.translateY then
      { st4 with proj := { st4.proj with translate :=
          ⟨(st4.translateX).getD (st4.width / 2), (st4.translateY).getD (st4.height / 2)⟩ } }
    else st4
  if st5.proj.hasRotate && d.rotation then
    { st5 with proj := { st5.proj with rotation :=
        ⟨(st5.rotationX).getD 0, (st5.rotationY).getD 0, (st5.rotationZ).getD 0⟩ } }
  else st5

/-- `MapChart._prepareChildren` (source lines 302-404) as a transition on
the chart state, returning the post-pass state and whether the pass
dispatched the (single) `geoboundschanged` event: the fit phase, then the
setting-application phase, then the dispatch block, which clears
`_dispatchBounds` and fires the event iff it was set and the event type is
enabled.  The `zoomControl` bookkeeping branch touches no state modelled
here and is omitted. -/
def prepareChildren (st : MapChart) (d : Dirty) (env : Env) : MapChart × Bool :=
  let st6 := applyDirtySettings (prepareFit st d env) d
  ({ st6 with dispatchBounds := false }, st6.dispatchBounds && st6.eventsEnabled)

/-- A sequence of reconciliation passes, collecting each pass's
`geoboundschanged` dispatch. -/
def runPasses (st : MapChart) (steps : List (Dirty × Env)) : MapChart × List Bool :=
  match steps with
  | [] => (st, [])
  | (d, env) :: rest =>
    let p := prepareChildren st d env
    let r := runPasses p.1 rest
    (r.1, p.2 :: r.2)

/-- `MapChart._handlePinch` (source lines 676-733), given the two resolved
down points and the two current move points of the gesture (already in the
chart container's local coordinates; `display.toLocal` is the render
backend's transform) and the host's `Math.hypot` as `hyp`.  The translate
formula is kept verbatim, including the `moveCenter.x - ... - moveCenter.x`
term the spec remarks on.  `_downTranslateX || 0` coincides with
`Option.getD 0` (JS `0 || 0` is `0`).  No clamping is applied. -/
def handlePinch (st : MapChart) (downPoint0 downPoint1 movePoint0 movePoint1 : Point)
    (hyp : ℚ → ℚ → ℚ) : MapChart :=
  let initialDistance :=
    hyp (downPoint1.x - downPoint0.x) (downPoint1.y - downPoint0.y)
  let currentDistance :=
    hyp (movePoint1.x - movePoint0.x) (movePoint1.y - movePoint0.y)
  let level := currentDistance / initialDistance * st.downZoomLevel
  let moveCenter : Point :=
    ⟨movePoint0.x + (movePoint1.x - movePoint0.x) / 2,
     movePoint0.y + (movePoint1.y - movePoint0.y) / 2⟩
  let downCenter : Point :=
    ⟨downPoint0.x + (downPoint1.x - downPoint0.x) / 2,
     downPoint0.y + (downPoint1.y - downPoint0.y) / 2⟩
  let tx := (st.downTranslateX).getD 0
  let ty := (st.downTranslateY).getD 0
  let zoomLevel := st.downZoomLevel
  let xx := moveCenter.x - (moveCenter.x - tx - moveCenter.x + downCenter.x) / zoomLevel * level
  let yy := moveCenter.y - (moveCenter.y - ty - moveCenter.y + downCenter.y) / zoomLevel * level
  { st with zoomLevel := some level, translateX := some xx, translateY := some yy }

/-- Upper clamp bound for `translateX` as the drag handler computes it
(`_handleChartMove`, source line 814). -/
def clampXHi (st : MapChart) : ℚ :=
  let ww := st.mapBounds.2.x - st.mapBounds.1.x
  let w := st.width
  let zoomLevel := (st.zoomLevel).getD 1
  let cx := (st.centroid.x - w / 2) * zoomLevel
  let maxPanOut := (st.maxPanOut).getD 0
  let xs : ℚ := if w < ww * zoomLevel then -1 else 1
  cx + xs * (w - ww) / 2 * zoomLevel + (w / 2) * zoomLevel + ww * maxPanOut

/-- Lower clamp bound for `translateX` (`_handleChartMove`, source
line 815). -/
def clampXLo (st : MapChart) : ℚ :=
  let ww := st.mapBounds.2.x - st.mapBounds.1.x
  let w := st.width
  let zoomLevel := (st.zoomLevel).getD 1
  let cx := (st.centroid.x - w / 2) * zoomLevel
  let maxPanOut := (st.maxPanOut).getD 0
  let xs : ℚ := if w < ww * zoomLevel then -1 else 1
  cx + xs * (-1) * (w - ww) / 2 * zoomLevel + w - (w / 2) * zoomLevel - ww * maxPanOut

/-- Upper clamp bound for `translateY` (`_handleChartMove`, source
line 817). -/
def clampYHi (st : MapChart) : ℚ :=
  let hh := st.mapBounds.2.y - st.mapBounds.1.y
  let h := st.height
  let zoomLevel := (st.zoomLevel).getD 1
  let cy := (st.centroid.y - h / 2) * zoomLevel
  let maxPanOut := (st.maxPanOut).getD 0
  let ys : ℚ := if h < hh * zoomLevel then -1 else 1
  cy + ys * (h - hh) / 2 * zoomLevel + (h / 2) * zoomLevel + hh * maxPanOut

/-- Lower clamp bound for `translateY` (`_handleChartMove`, source
line 818). -/
def clampYLo (st : MapChart) : ℚ :=
  let hh := st.mapBounds.2.y - st.mapBounds.1.y
  let h := st.height
  let zoomLevel := (st.zoomLevel).getD 1
  let cy := (st.centroid.y - h / 2) * zoomLevel
  let maxPanOut := (st.maxPanOut).getD 0
  let ys : ℚ := if h < hh * zoomLevel then -1 else 1
  cy + ys * (-1) * (h - hh) / 2 * zoomLevel + h - (h / 2) * zoomLevel - hh * maxPanOut

/-- The single-pointer drag body of `MapChart._handleChartMove` (source
lines 758-836), given the down point and the current point in local
coordinates and `Math.hypot` as `hyp`: beyond the 5px threshold, add the
pixel delta to the snapshotted translate for the `translateX`/`translateY`
pan modes, clamp both axes through the bounds clamp, commit, then apply the
rotate pan modes using the snapshotted pixel-to-degree ratios when the
projection can invert the down point (the JS guard `location &&
downLocation` is always-truthy `location` and the inversion result).
`_downRotationX!`/`_downRotationY!` are non-null assertions in the source;
an unset snapshot is modelled as 0. -/
def handleDragMove (st : MapChart) (downPoint localPoint : Point)
    (hyp : ℚ → ℚ → ℚ) : MapChart :=
  if st.panX ≠ some PanMode.modeNone ∨ st.panY ≠ some PanMode.modeNone then
    if hyp (downPoint.x - localPoint.x) (downPoint.y - localPoint.y) > 5 then
      match st.downTranslateX, st.downTranslateY with
      | some x0, some y0 =>
        let x1 := if st.panX = some PanMode.translate then
            x0 + (localPoint.x - downPoint.x) else x0
        let y1 := if st.panY = some PanMode.translate then
            y0 + (localPoint.y - downPoint.y) else y0
        let x2 := max (min x1 (clampXHi st)) (clampXLo st)
        let y2 := max (min y1 (clampYHi st)) (clampYLo st)
        let st1 := { st with translateX := some x2, translateY := some y2 }
        match projInvertPt st1.proj downPoint with
        | some _ =>
          let rX := some ((st1.downRotationX).getD 0 - (downPoint.x - localPoint.x) * st1.pLon)
          let st2 := if st1.panX = some PanMode.rotate then { st1 with rotationX := rX } else st1
          let rY := some ((st2.downRotationY).getD 0 + (downPoint.y - localPoint.y) * st2.pLat)
          if st2.panY = some PanMode.rotate then { st2 with rotationY := rY } else st2
        | none => st1
      | some _, none => st
      | none, some _ => st
      | none, none => st
    else st
  else st

/-- `MapChart.zoomToGeoBounds` (source lines 871-904): normalize
antimeridian-wrapped input bounds to the full longitude range, convert the
corners to screen space, clamp them vertically to the geometry's own screen
bounds, compute the zoom level fitting the box into 90% of the series
container, and resolve to `zoomToGeoPoint` on the box's center. -/
def zoomToGeoBounds (st : MapChart) (env : Env) (geoBounds : GeoBounds) : MapChart :=
  let geoBounds := if geoBounds.right < geoBounds.left then
      { geoBounds with right := 180, left := -180 }
    else geoBounds
  let mapBounds := env.pathBounds st.geometryColection
  let p0 := convert st ⟨geoBounds.left, geoBounds.top⟩
  let p1 := convert st ⟨geoBounds.right, geoBounds.bottom⟩
  let p0 := if p0.y < mapBounds.1.y then { p0 with y := mapBounds.1.y } else p0
  let p1 := if p1.y > mapBounds.2.y then { p1 with y := mapBounds.2.y } else p1
  let zl := (st.zoomLevel).getD 1
  let bLeft := p0.x
  let bRight := p1.x
  let bTop := p0.y
  let bBottom := p1.y
  let zoomLevel := (9 : ℚ) / 10 *
    min (st.seriesInnerW / (bRight - bLeft) * zl) (st.seriesInnerH / (bBottom - bTop) * zl)
  let x := bLeft + (bRight - bLeft) / 2
  let y := bTop + (bBottom - bTop) / 2
  let geoPoint := invert st ⟨x, y⟩
  zoomToGeoPoint st geoPoint zoomLevel true

/-! ### Concrete instances used by witnesses and counterexamples -/

/-- A projection whose raw forward map is the identity on coordinates and
which is invertible. -/
def idProj : Proj :=
  { raw := fun _ g => some ⟨g.longitude, g.latitude⟩
    rawInvert := some fun _ p => some ⟨p.x, p.y⟩
    hasRotate := false
    scale := 1
    translate := ⟨0, 0⟩
    rotation := ⟨0, 0, 0⟩ }

/-- A baseline chart state: an 800×600 viewport, the identity-like
projection fitted at `mapScale = 1` and centered, `zoomLevel 1`, every
optional setting left at its default. -/
def baseChart : MapChart :=
  { proj := { idProj with translate := ⟨400, 300⟩ }
    zoomLevel := some 1
    translateX := some 400
    translateY := some 300
    rotationX := none
    rotationY := none
    rotationZ := none
    minZoomLevel := none
    maxZoomLevel := none
    zoomStep := none
    maxPanOut := none
    panX := some PanMode.translate
    panY := some PanMode.translate
    mapScale := 1
    width := 800
    height := 600
    innerW := 800
    innerH := 600
    seriesInnerW := 800
    seriesInnerH := 600
    geometryColection := []
    mapBounds := (⟨0, 0⟩, ⟨800, 600⟩)
    centroid := ⟨400, 300⟩
    geoCentroid := ⟨0, 0⟩
    geoBounds := ⟨0, 0, 0, 0⟩
    prevGeoBounds := ⟨0, 0, 0, 0⟩
    dispatchBounds := false
    eventsEnabled := true
    centerLocation := none
    downZoomLevel := 1
    downTranslateX := none
    downTranslateY := none
    downRotationX := none
    downRotationY := none
    pLon := 0
    pLat := 0 }

/-- The taxicab norm: a concrete stand-in for the abstract `hyp` parameter
in witnesses whose spans are axis-aligned, where it agrees with the
Euclidean `Math.hypot`. -/
def absSum (a b : ℚ) : ℚ := |a| + |b|

/-- A trivial external environment for concrete instantiations whose pass
has no projection / geometry / size dirt. -/
def envTrivial : Env :=
  { fitScale := fun _ _ _ => 1
    fitTranslate := fun _ _ _ => ⟨0, 0⟩
    pathBounds := fun _ => (⟨0, 0⟩, ⟨0, 0⟩)
    naiveGeoBounds := fun _ => ⟨0, 0, 0, 0⟩
    centroidOf := fun _ => ⟨0, 0⟩
    seriesGeometries := [] }

/-! ### Helper lemmas -/

/-- The anchor algebra shared by `zoomToPoint` and the pinch translate
formula: rescaling to any level `L` with the translate retargeted to
`c - (q - t) / z0 * L` sends the raw coordinate `r` that used to land on
`q` (at scale `m * z0`, translate `t`) to `c`. -/
theorem anchor_calc (m z0 L t q c r : ℚ) (h : t + m * z0 * r = q) (hz : z0 ≠ 0) :
    c - (q - t) / z0 * L + m * L * r = c := by
  subst h
  field_simp
  ring

/-- The anchor algebra with the pinch handler's verbatim translate formula,
redundant `c - t - c` term included. -/
theorem pinch_anchor_calc (m z0 L t q c r : ℚ) (h : t + m * z0 * r = q) (hz : z0 ≠ 0) :
    c - (c - t - c + q) / z0 * L + m * L * r = c := by
  subst h
  field_simp
  ring

/-- A reconciliation pass whose dirty set is exactly
`zoomLevel`/`translateX`/`translateY` only syncs the projection object's
scale and translate to the settings, leaving the rest of the projection
untouched. -/
theorem prepare_zoomPan_sync (st : MapChart) (env : Env) :
    ((prepareChildren st zoomPanDirty env).1).proj =
      { st.proj with
        scale := st.mapScale * (st.zoomLevel).getD 1,
        translate := ⟨(st.translateX).getD (st.width / 2),
                      (st.translateY).getD (st.height / 2)⟩ } := by
  simp [prepareChildren, prepareFit, applyDirtySettings, zoomPanDirty]

/-- A reconciliation pass whose dirty set is exactly
`zoomLevel`/`translateX`/`translateY` only syncs the projection object to
the (set) settings. -/
theorem prepare_zoomPan_proj (st : MapChart) (env : Env) (a b z : ℚ)
    (ha : st.translateX = some a) (hb : st.translateY = some b)
    (hz : st.zoomLevel = some z) :
    ((prepareChildren st zoomPanDirty env).1).proj =
      { st.proj with scale := st.mapScale * z, translate := ⟨a, b⟩ } := by
  simp [prepareChildren, prepareFit, applyDirtySettings, zoomPanDirty, ha, hb, hz]

/-! ### Claims -/

/-- C7: `invert` returns the `{longitude: 0, latitude: 0}` fallback whenever
the active projection has no inverse function or the inversion yields no
result, and `convert` returns the `{x: 0, y: 0}` fallback whenever the
projection returns no result; both are total functions (they never
throw). -/
theorem claim_C7 (st : MapChart) (p : Point) (g : GeoPoint) :
    (projInvertPt st.proj p = none → invert st p = ⟨0, 0⟩) ∧
    (projApply st.proj g = none → convert st g = ⟨0, 0⟩) := by
  constructor
  · intro h
    simp [invert, h]
  · intro h
    simp [convert, h]

/-- C7 witness: a projection with no inverse and an empty forward domain
falls back to the zero geographic point and the zero screen point. -/
theorem claim_C7_witness :
    invert { baseChart with proj := { idProj with raw := fun _ _ => none, rawInvert := none } } ⟨7, 9⟩ = ⟨0, 0⟩ ∧
    convert { baseChart with proj := { idProj with raw := fun _ _ => none, rawInvert := none } } ⟨3, 4⟩ = ⟨0, 0⟩ :=
  ⟨(claim_C7 _ ⟨7, 9⟩ ⟨3, 4⟩).1 rfl, (claim_C7 _ ⟨7, 9⟩ ⟨3, 4⟩).2 rfl⟩

/-- C9 (amended): for every nonzero `level` passed to `zoomToPoint`, the
zoom level actually applied (the `zoomLevel` animation target) is
`fitToRange(level, minZoomLevel, maxZoomLevel)`, with defaults 1 and 32; a
zero (falsy) `level` bypasses the clamp (see the counterexample). -/
theorem claim_C9 (st : MapChart) (point : Point) (level : ℚ) (center : Bool)
    (h : level ≠ 0) :
    (zoomToPoint st point level center).zoomLevel =
      some (fitToRange level ((st.minZoomLevel).getD 1) ((st.maxZoomLevel).getD 32)) := by
  simp [zoomToPoint, h]

/-- C9 witness: level 100 on the default clamp range [1, 32] is applied as
32. -/
theorem claim_C9_witness :
    (100 : ℚ) ≠ 0 ∧ (zoomToPoint baseChart ⟨400, 300⟩ 100 true).zoomLevel = some 32 := by
  refine ⟨by norm_num, ?_⟩
  rw [claim_C9 baseChart ⟨400, 300⟩ 100 true (by norm_num)]
  norm_num [fitToRange, baseChart]

/-- C9 counterexample: `zoomToPoint` with `level = 0` animates `zoomLevel`
to 0, not to `fitToRange(0, 1, 32) = 1`, because the clamp is guarded by
`if (level)`. -/
theorem claim_C9_cex :
    (zoomToPoint baseChart ⟨100, 100⟩ 0 false).zoomLevel ≠
      some (fitToRange 0 ((baseChart.minZoomLevel).getD 1) ((baseChart.maxZoomLevel).getD 32)) := by
  norm_num [zoomToPoint, fitToRange, baseChart]

/-- C2: each pinch move sets the `zoomLevel` setting to the zoom level
snapshotted at gesture start multiplied by the directed span between the
two current touch points over the span between the two down points (the
spans being `Math.hypot` of the coordinate differences). -/
theorem claim_C2 (st : MapChart) (downPoint0 downPoint1 movePoint0 movePoint1 : Point)
    (hyp : ℚ → ℚ → ℚ) (dcur ddown : ℚ)
    (hdown : hyp (downPoint1.x - downPoint0.x) (downPoint1.y - downPoint0.y) = ddown)
    (hcur : hyp (movePoint1.x - movePoint0.x) (movePoint1.y - movePoint0.y) = dcur) :
    (handlePinch st downPoint0 downPoint1 movePoint0 movePoint1 hyp).zoomLevel =
      some (st.downZoomLevel * (dcur / ddown)) := by
  simp only [handlePinch, hdown, hcur, Option.some.injEq]
  ring

/-- C2 witness: the spec scenario — down points (100,300) and (300,300)
(span 200) at snapshot zoom 2, moved to (50,300) and (350,300) (span 300),
yields zoom level 3. -/
theorem claim_C2_witness :
    absSum (300 - 100) (300 - 300) = 200 ∧
    absSum (350 - 50) (300 - 300) = 300 ∧
    (handlePinch { baseChart with downZoomLevel := 2 }
        ⟨100, 300⟩ ⟨300, 300⟩ ⟨50, 300⟩ ⟨350, 300⟩ absSum).zoomLevel = some 3 := by
  refine ⟨by norm_num [absSum], by norm_num [absSum], ?_⟩
  rw [claim_C2 { baseChart with downZoomLevel := 2 }
    ⟨100, 300⟩ ⟨300, 300⟩ ⟨50, 300⟩ ⟨350, 300⟩ absSum 300 200
    (by norm_num [absSum]) (by norm_num [absSum])]
  norm_num

/-- C1: zoom anchor invariant.  Starting from a reconciled state (the
projection object agrees with the settings), let `g = invert(p)`; once the
three animations issued by `zoomToPoint(p, level, center)` have reached
their targets and the reconciliation pass has applied the dirty
`zoomLevel`/`translateX`/`translateY` settings, `convert(g)` is exactly `p`
when `center` is false, and exactly the viewport center
`{x: width/2, y: height/2}` when `center` is true. -/
theorem claim_C1 (st : MapChart) (env : Env) (p : Point) (level : ℚ) (center : Bool)
    (tx ty z0 : ℚ)
    (htx : st.translateX = some tx) (hty : st.translateY = some ty)
    (hz : st.zoomLevel = some z0) (hz0 : z0 ≠ 0)
    (hscale : st.proj.scale = st.mapScale * z0)
    (htrans : st.proj.translate = ⟨tx, ty⟩)
    (hg : projApply st.proj (invert st p) = some p) :
    convert ((prepareChildren (zoomToPoint st p level center) zoomPanDirty env).1)
        (invert st p) =
      if center then ⟨st.width / 2, st.height / 2⟩ else p := by
  rw [projApply, Option.map_eq_some'] at hg
  obtain ⟨r, hr, hp⟩ := hg
  rw [htrans, hscale] at hp
  have hproj := prepare_zoomPan_proj (zoomToPoint st p level center) env
    ((if center then st.width / 2 else p.x) -
        (p.x - tx) / z0 * (if level ≠ 0 then
          fitToRange level ((st.minZoomLevel).getD 1) ((st.maxZoomLevel).getD 32) else level))
    ((if center then st.height / 2 else p.y) -
        (p.y - ty) / z0 * (if level ≠ 0 then
          fitToRange level ((st.minZoomLevel).getD 1) ((st.maxZoomLevel).getD 32) else level))
    (if level ≠ 0 then
      fitToRange level ((st.minZoomLevel).getD 1) ((st.maxZoomLevel).getD 32) else level)
    (by simp [zoomToPoint, htx, hz]) (by simp [zoomToPoint, hty, hz])
    (by simp [zoomToPoint])
  rw [convert, hproj]
  have hpx : tx + st.mapScale * z0 * r.x = p.x := congrArg Point.x hp
  have hpy : ty + st.mapScale * z0 * r.y = p.y := congrArg Point.y hp
  have hmsc : (zoomToPoint st p level center).mapScale = st.mapScale := by
    simp [zoomToPoint]
  have hraw : (zoomToPoint st p level center).proj = st.proj := by
    simp [zoomToPoint]
  rw [projApply]
  simp only [hraw, hmsc, hr, Option.map_some', Option.getD_some]
  have hx := anchor_calc st.mapScale z0
    (if level ≠ 0 then
      fitToRange level ((st.minZoomLevel).getD 1) ((st.maxZoomLevel).getD 32) else level)
    tx p.x (if center then st.width / 2 else p.x) r.x hpx hz0
  have hy := anchor_calc st.mapScale z0
    (if level ≠ 0 then
      fitToRange level ((st.minZoomLevel).getD 1) ((st.maxZoomLevel).getD 32) else level)
    ty p.y (if center then st.height / 2 else p.y) r.y hpy hz0
  cases center with
  | false => simp only [if_neg Bool.false_ne_true] at hx hy ⊢
             rw [hx, hy]
  | true => simp only [if_pos rfl] at hx hy ⊢
            rw [hx, hy]
            simp

/-- C1 witness: the spec scenario — 800×600 viewport fitted at `mapScale 1`
and `zoomLevel 1`; `zoomToPoint({x:400, y:300}, 4, center = true)` settles
at `zoomLevel 4` with the geographic point that was under (400,300)
projected at (400,300). -/
theorem claim_C1_witness :
    convert ((prepareChildren (zoomToPoint baseChart ⟨400, 300⟩ 4 true)
        zoomPanDirty envTrivial).1) (invert baseChart ⟨400, 300⟩) = ⟨400, 300⟩ ∧
    ((prepareChildren (zoomToPoint baseChart ⟨400, 300⟩ 4 true)
        zoomPanDirty envTrivial).1).zoomLevel = some 4 := by
  constructor
  · have h := claim_C1 baseChart envTrivial ⟨400, 300⟩ 4 true 400 300 1
      rfl rfl rfl (by norm_num) (by norm_num [baseChart, idProj]) rfl
      (by norm_num [projApply, invert, projInvertPt, baseChart, idProj])
    rw [h]
    norm_num [baseChart]
  · norm_num [prepareChildren, prepareFit, applyDirtySettings, zoomPanDirty, zoomToPoint, fitToRange, baseChart]

/-- C3: anchor-preserving pinch translate.  Starting from the gesture-start
state (the projection object agrees with the snapshotted translate and zoom
level), the translate the pinch move commits is such that, once the
reconciliation pass has applied the new zoom level and translate, the
geographic point that was projected at the midpoint of the two down points
is projected at the midpoint of the two current touch points. -/
theorem claim_C3 (st : MapChart) (env : Env) (hyp : ℚ → ℚ → ℚ)
    (downPoint0 downPoint1 movePoint0 movePoint1 : Point) (g : GeoPoint) (tx ty : ℚ)
    (htx : st.downTranslateX = some tx) (hty : st.downTranslateY = some ty)
    (hz0 : st.downZoomLevel ≠ 0)
    (hscale : st.proj.scale = st.mapScale * st.downZoomLevel)
    (htrans : st.proj.translate = ⟨tx, ty⟩)
    (hg : projApply st.proj g =
      some ⟨downPoint0.x + (downPoint1.x - downPoint0.x) / 2,
            downPoint0.y + (downPoint1.y - downPoint0.y) / 2⟩) :
    convert ((prepareChildren
        (handlePinch st downPoint0 downPoint1 movePoint0 movePoint1 hyp)
        zoomPanDirty env).1) g =
      ⟨movePoint0.x + (movePoint1.x - movePoint0.x) / 2,
       movePoint0.y + (movePoint1.y - movePoint0.y) / 2⟩ := by
  rw [projApply, Option.map_eq_some'] at hg
  obtain ⟨r, hr, hp⟩ := hg
  rw [htrans, hscale] at hp
  have hpx : tx + st.mapScale * st.downZoomLevel * r.x =
      downPoint0.x + (downPoint1.x - downPoint0.x) / 2 := congrArg Point.x hp
  have hpy : ty + st.mapScale * st.downZoomLevel * r.y =
      downPoint0.y + (downPoint1.y - downPoint0.y) / 2 := congrArg Point.y hp
  rw [convert, prepare_zoomPan_sync, projApply]
  simp only [handlePinch, htx, hty, Option.getD_some, hr, Option.map_some',
    Option.getD_some, Point.mk.injEq]
  exact ⟨pinch_anchor_calc _ _ _ _ _ _ _ hpx hz0,
         pinch_anchor_calc _ _ _ _ _ _ _ hpy hz0⟩

/-- The gesture-start state for the C3 witness: snapshot translate
(100, 50), snapshot zoom level 2, `mapScale 1`, projection in sync. -/
def pinchChart : MapChart :=
  { baseChart with
    proj := { idProj with scale := 2, translate := ⟨100, 50⟩ }
    downZoomLevel := 2
    downTranslateX := some 100
    downTranslateY := some 50 }

/-- C3 witness: the geographic point projected at the down midpoint
(200, 300) ends up projected at the move midpoint (200, 310) after the
pinch commits and the pass applies it. -/
theorem claim_C3_witness :
    convert ((prepareChildren
        (handlePinch pinchChart ⟨100, 300⟩ ⟨300, 300⟩ ⟨50, 300⟩ ⟨350, 320⟩ absSum)
        zoomPanDirty envTrivial).1) ⟨50, 125⟩ = ⟨200, 310⟩ := by
  have h := claim_C3 pinchChart envTrivial absSum
    ⟨100, 300⟩ ⟨300, 300⟩ ⟨50, 300⟩ ⟨350, 320⟩ ⟨50, 125⟩ 100 50
    rfl rfl (by norm_num [pinchChart, baseChart])
    (by norm_num [pinchChart, baseChart, idProj]) rfl
    (by norm_num [projApply, pinchChart, baseChart, idProj])
  rw [h]
  norm_num

/-- A committed drag beyond the 5px threshold with both pan modes
`translateX`/`translateY` sets exactly the clamped translate values. -/
theorem handleDragMove_commit (st : MapChart) (downPoint localPoint : Point)
    (hyp : ℚ → ℚ → ℚ) (x0 y0 : ℚ)
    (hx : st.downTranslateX = some x0) (hy : st.downTranslateY = some y0)
    (hpx : st.panX = some PanMode.translate) (hpy : st.panY = some PanMode.translate)
    (hmove : hyp (downPoint.x - localPoint.x) (downPoint.y - localPoint.y) > 5) :
    handleDragMove st downPoint localPoint hyp =
      { st with
        translateX := some (max (min (x0 + (localPoint.x - downPoint.x)) (clampXHi st)) (clampXLo st)),
        translateY := some (max (min (y0 + (localPoint.y - downPoint.y)) (clampYHi st)) (clampYLo st)) } := by
  have hcond : st.panX ≠ some PanMode.modeNone ∨ st.panY ≠ some PanMode.modeNone := by
    rw [hpx]
    simp
  rw [handleDragMove, if_pos hcond, if_pos hmove, hx, hy]
  simp only [hpx, hpy]
  split <;> simp

/-- C4 (amended): translate values committed by a drag (beyond the 5px
threshold, pan modes `translateX`/`translateY`) are exactly the snapshot
plus the pixel delta clamped into `[clampXLo, clampXHi]` ×
`[clampYLo, clampYHi]`, and whenever those ranges are non-empty the
committed values lie inside them; translate values committed by a pinch are
NOT passed through the bounds clamp and can lie outside the range (see the
counterexample). -/
theorem claim_C4 (st : MapChart) (downPoint localPoint : Point)
    (hyp : ℚ → ℚ → ℚ) (x0 y0 : ℚ)
    (hx : st.downTranslateX = some x0) (hy : st.downTranslateY = some y0)
    (hpx : st.panX = some PanMode.translate) (hpy : st.panY = some PanMode.translate)
    (hmove : hyp (downPoint.x - localPoint.x) (downPoint.y - localPoint.y) > 5) :
    (handleDragMove st downPoint localPoint hyp).translateX =
      some (max (min (x0 + (localPoint.x - downPoint.x)) (clampXHi st)) (clampXLo st)) ∧
    (handleDragMove st downPoint localPoint hyp).translateY =
      some (max (min (y0 + (localPoint.y - downPoint.y)) (clampYHi st)) (clampYLo st)) ∧
    (clampXLo st ≤ clampXHi st →
      clampXLo st ≤ max (min (x0 + (localPoint.x - downPoint.x)) (clampXHi st)) (clampXLo st) ∧
      max (min (x0 + (localPoint.x - downPoint.x)) (clampXHi st)) (clampXLo st) ≤ clampXHi st) ∧
    (clampYLo st ≤ clampYHi st →
      clampYLo st ≤ max (min (y0 + (localPoint.y - downPoint.y)) (clampYHi st)) (clampYLo st) ∧
      max (min (y0 + (localPoint.y - downPoint.y)) (clampYHi st)) (clampYLo st) ≤ clampYHi st) := by
  rw [handleDragMove_commit st downPoint localPoint hyp x0 y0 hx hy hpx hpy hmove]
  refine ⟨rfl, rfl, ?_, ?_⟩
  · intro h
    exact ⟨le_max_right _ _, max_le (min_le_right _ _) h⟩
  · intro h
    exact ⟨le_max_right _ _, max_le (min_le_right _ _) h⟩

/-- A 100×100 chart whose fitted geometry fills the viewport, with the
default `maxPanOut` 0.4, about to receive a pinch whose fingers close while
far to the right of the viewport. -/
def cexChart : MapChart :=
  { baseChart with
    width := 100
    height := 100
    mapBounds := (⟨0, 0⟩, ⟨100, 100⟩)
    centroid := ⟨50, 50⟩
    maxPanOut := some (2 / 5)
    downZoomLevel := 1
    downTranslateX := some 20
    downTranslateY := some 20 }

/-- C4 counterexample: the pinch with down points (30,50)/(70,50) moved to
(950,50)/(970,50) commits `translateX = 945`, far above the bounds clamp's
upper limit 65 for the committed state — pinch-produced translates are not
clamped. -/
theorem claim_C4_cex :
    (handlePinch cexChart ⟨30, 50⟩ ⟨70, 50⟩ ⟨950, 50⟩ ⟨970, 50⟩ absSum).translateX =
      some 945 ∧
    clampXHi (handlePinch cexChart ⟨30, 50⟩ ⟨70, 50⟩ ⟨950, 50⟩ ⟨970, 50⟩ absSum) = 65 ∧
    ¬ ((945 : ℚ) ≤ 65) := by
  refine ⟨?_, ?_, by norm_num⟩
  · norm_num [handlePinch, absSum, cexChart, baseChart]
  · norm_num [clampXHi, handlePinch, absSum, cexChart, baseChart]

/-- The chart state for the C4 witness: the baseline chart with a drag
snapshot at the fitted translate and `maxPanOut` 0.4. -/
def dragChart : MapChart :=
  { baseChart with
    mapBounds := (⟨0, 0⟩, ⟨800, 600⟩)
    maxPanOut := some (2 / 5)
    downTranslateX := some 400
    downTranslateY := some 300 }

/-- C4 witness: a 10px rightward drag commits `translateX = 410` and
`translateY = 300`, the clamp of the snapshot-plus-delta into the legal
ranges [80, 720] × [60, 540]. -/
theorem claim_C4_witness :
    (handleDragMove dragChart ⟨0, 0⟩ ⟨10, 0⟩ absSum).translateX = some 410 ∧
    (handleDragMove dragChart ⟨0, 0⟩ ⟨10, 0⟩ absSum).translateY = some 300 := by
  have h := claim_C4 dragChart ⟨0, 0⟩ ⟨10, 0⟩ absSum 400 300 rfl rfl rfl rfl
    (by norm_num [absSum])
  exact ⟨h.1.trans (by norm_num [clampXHi, clampXLo, dragChart, baseChart]),
         h.2.1.trans (by norm_num [clampYHi, clampYLo, dragChart, baseChart])⟩

/-! ### Field bookkeeping for the reconciliation pass -/

/-- Fields `_fitMap` never touches, and its effect on `mapScale` and the
projection scale: both become the fit scale of the current collection. -/
theorem fitMap_fields (st : MapChart) (env : Env) :
    (fitMap st env).mapScale = env.fitScale st.geometryColection st.innerW st.innerH ∧
    (fitMap st env).proj.scale = env.fitScale st.geometryColection st.innerW st.innerH ∧
    (fitMap st env).geometryColection = st.geometryColection ∧
    (fitMap st env).zoomLevel = st.zoomLevel ∧
    (fitMap st env).innerW = st.innerW ∧
    (fitMap st env).innerH = st.innerH ∧
    (fitMap st env).eventsEnabled = st.eventsEnabled := by
  simp only [fitMap]
  split_ifs <;> simp

/-- When the collection's rounded geographic bounds already equal the
recorded previous bounds, `_fitMap` neither arms the dispatch flag nor
moves the previous-bounds snapshot. -/
theorem fitMap_no_arm (st : MapChart) (env : Env)
    (h : roundBounds (computeGeoBounds env st.geometryColection) = st.prevGeoBounds) :
    (fitMap st env).dispatchBounds = st.dispatchBounds ∧
    (fitMap st env).prevGeoBounds = st.prevGeoBounds := by
  simp only [fitMap]
  split_ifs with h1 h2 <;> simp_all

/-- On an empty geometry collection `_fitMap` skips the bounds rounding
block entirely: the dispatch flag and the previous-bounds snapshot are
untouched. -/
theorem fitMap_empty (st : MapChart) (env : Env) (h : st.geometryColection = []) :
    (fitMap st env).dispatchBounds = st.dispatchBounds ∧
    (fitMap st env).prevGeoBounds = st.prevGeoBounds ∧
    (fitMap st env).geoBounds = computeGeoBounds env st.geometryColection := by
  simp only [fitMap]
  split_ifs with h1 h2 <;> simp_all

/-- Fields the size/padding branch never touches, and its effect on
`mapScale` and the projection scale. -/
theorem sizeStep_fields (st : MapChart) (env : Env) :
    (sizeStep st env).mapScale = env.fitScale st.geometryColection st.innerW st.innerH ∧
    (sizeStep st env).proj.scale =
      env.fitScale st.geometryColection st.innerW st.innerH * (st.zoomLevel).getD 1 ∧
    (sizeStep st env).geometryColection = st.geometryColection ∧
    (sizeStep st env).zoomLevel = st.zoomLevel ∧
    (sizeStep st env).innerW = st.innerW ∧
    (sizeStep st env).innerH = st.innerH ∧
    (sizeStep st env).dispatchBounds = st.dispatchBounds ∧
    (sizeStep st env).prevGeoBounds = st.prevGeoBounds ∧
    (sizeStep st env).eventsEnabled = st.eventsEnabled := by
  simp only [sizeStep]
  split
  · split <;> simp
  · simp

/-- Fields the setting-application phase never touches. -/
theorem applyDirty_fields (st : MapChart) (d : Dirty) :
    (applyDirtySettings st d).mapScale = st.mapScale ∧
    (applyDirtySettings st d).zoomLevel = st.zoomLevel ∧
    (applyDirtySettings st d).geometryColection = st.geometryColection ∧
    (applyDirtySettings st d).dispatchBounds = st.dispatchBounds ∧
    (applyDirtySettings st d).prevGeoBounds = st.prevGeoBounds ∧
    (applyDirtySettings st d).eventsEnabled = st.eventsEnabled := by
  simp only [applyDirtySettings]
  split_ifs <;> simp

/-- With `zoomLevel` dirty, the setting-application phase leaves the
projection scale at `mapScale * zoomLevel`. -/
theorem applyDirty_scale_zoom (st : MapChart) (d : Dirty) (h : d.zoomLevel = true) :
    (applyDirtySettings st d).proj.scale = st.mapScale * (st.zoomLevel).getD 1 := by
  simp only [applyDirtySettings, h]
  split_ifs <;> simp_all

/-- With `zoomLevel` clean, the setting-application phase leaves the
projection scale unchanged. -/
theorem applyDirty_scale_clean (st : MapChart) (d : Dirty) (h : d.zoomLevel = false) :
    (applyDirtySettings st d).proj.scale = st.proj.scale := by
  simp only [applyDirtySettings, h]
  split_ifs <;> simp_all

/-- A pass with no fit-relevant dirt leaves the state to the
setting-application phase untouched. -/
theorem prepareFit_clean (st : MapChart) (d : Dirty) (env : Env)
    (hp : d.projection = false) (hg : d.geometries = false) (hs : d.size = false) :
    prepareFit st d env = st := by
  simp [prepareFit, hp, hg, hs]

/-- The fit phase never changes the `zoomLevel` setting, the inner viewport
or the event-enabled flag. -/
theorem fitMap_mapScale (st : MapChart) (env : Env) :
    (fitMap st env).mapScale = env.fitScale st.geometryColection st.innerW st.innerH :=
  (fitMap_fields st env).1

theorem fitMap_projScale (st : MapChart) (env : Env) :
    (fitMap st env).proj.scale = env.fitScale st.geometryColection st.innerW st.innerH :=
  (fitMap_fields st env).2.1

theorem fitMap_coll (st : MapChart) (env : Env) :
    (fitMap st env).geometryColection = st.geometryColection :=
  (fitMap_fields st env).2.2.1

theorem fitMap_zoomLevel (st : MapChart) (env : Env) :
    (fitMap st env).zoomLevel = st.zoomLevel :=
  (fitMap_fields st env).2.2.2.1

theorem fitMap_innerW (st : MapChart) (env : Env) :
    (fitMap st env).innerW = st.innerW :=
  (fitMap_fields st env).2.2.2.2.1

theorem fitMap_innerH (st : MapChart) (env : Env) :
    (fitMap st env).innerH = st.innerH :=
  (fitMap_fields st env).2.2.2.2.2.1

theorem fitMap_enabled (st : MapChart) (env : Env) :
    (fitMap st env).eventsEnabled = st.eventsEnabled :=
  (fitMap_fields st env).2.2.2.2.2.2

theorem sizeStep_mapScale (st : MapChart) (env : Env) :
    (sizeStep st env).mapScale = env.fitScale st.geometryColection st.innerW st.innerH :=
  (sizeStep_fields st env).1

theorem sizeStep_projScale (st : MapChart) (env : Env) :
    (sizeStep st env).proj.scale =
      env.fitScale st.geometryColection st.innerW st.innerH * (st.zoomLevel).getD 1 :=
  (sizeStep_fields st env).2.1

theorem sizeStep_coll (st : MapChart) (env : Env) :
    (sizeStep st env).geometryColection = st.geometryColection :=
  (sizeStep_fields st env).2.2.1

theorem sizeStep_zoomLevel (st : MapChart) (env : Env) :
    (sizeStep st env).zoomLevel = st.zoomLevel :=
  (sizeStep_fields st env).2.2.2.1

theorem sizeStep_innerW (st : MapChart) (env : Env) :
    (sizeStep st env).innerW = st.innerW :=
  (sizeStep_fields st env).2.2.2.2.1

theorem sizeStep_innerH (st : MapChart) (env : Env) :
    (sizeStep st env).innerH = st.innerH :=
  (sizeStep_fields st env).2.2.2.2.2.1

theorem sizeStep_flag (st : MapChart) (env : Env) :
    (sizeStep st env).dispatchBounds = st.dispatchBounds :=
  (sizeStep_fields st env).2.2.2.2.2.2.1

theorem sizeStep_prev (st : MapChart) (env : Env) :
    (sizeStep st env).prevGeoBounds = st.prevGeoBounds :=
  (sizeStep_fields st env).2.2.2.2.2.2.2.1

theorem sizeStep_enabled (st : MapChart) (env : Env) :
    (sizeStep st env).eventsEnabled = st.eventsEnabled :=
  (sizeStep_fields st env).2.2.2.2.2.2.2.2

theorem applyDirty_mapScale (st : MapChart) (d : Dirty) :
    (applyDirtySettings st d).mapScale = st.mapScale :=
  (applyDirty_fields st d).1

theorem applyDirty_zoomLevel (st : MapChart) (d : Dirty) :
    (applyDirtySettings st d).zoomLevel = st.zoomLevel :=
  (applyDirty_fields st d).2.1

theorem applyDirty_coll (st : MapChart) (d : Dirty) :
    (applyDirtySettings st d).geometryColection = st.geometryColection :=
  (applyDirty_fields st d).2.2.1

theorem applyDirty_flag (st : MapChart) (d : Dirty) :
    (applyDirtySettings st d).dispatchBounds = st.dispatchBounds :=
  (applyDirty_fields st d).2.2.2.1

theorem applyDirty_prev (st : MapChart) (d : Dirty) :
    (applyDirtySettings st d).prevGeoBounds = st.prevGeoBounds :=
  (applyDirty_fields st d).2.2.2.2.1

theorem applyDirty_enabled (st : MapChart) (d : Dirty) :
    (applyDirtySettings st d).eventsEnabled = st.eventsEnabled :=
  (applyDirty_fields st d).2.2.2.2.2

theorem prepareFit_frame (st : MapChart) (d : Dirty) (env : Env) :
    (prepareFit st d env).zoomLevel = st.zoomLevel ∧
    (prepareFit st d env).innerW = st.innerW ∧
    (prepareFit st d env).innerH = st.innerH ∧
    (prepareFit st d env).eventsEnabled = st.eventsEnabled := by
  rw [prepareFit]
  rcases d with ⟨dp, dg, ds, _, _, _, _⟩
  cases dp <;> cases dg <;> cases ds <;>
    simp [fitMap_zoomLevel, fitMap_innerW, fitMap_innerH, fitMap_enabled,
      sizeStep_zoomLevel, sizeStep_innerW, sizeStep_innerH, sizeStep_enabled]

/-- A fit phase with the size flag clear is the first two stages; with it
set, the size branch runs on their result. -/
theorem prepareFit_size_split (st : MapChart) (env : Env)
    (dp dg dz dt1 dt2 dr : Bool) :
    prepareFit st ⟨dp, dg, true, dz, dt1, dt2, dr⟩ env =
      sizeStep (prepareFit st ⟨dp, dg, false, dz, dt1, dt2, dr⟩ env) env := by
  simp [prepareFit]

/-- When every rounded-bounds computation the fit phase actually performs
(over the incoming collection if the projection is dirty, over the series'
aggregate if the geometries are dirty) already equals the recorded previous
bounds, the fit phase neither arms the dispatch flag nor moves the
previous-bounds snapshot. -/
theorem prepareFit_no_arm (st : MapChart) (d : Dirty) (env : Env)
    (h1 : d.projection = true →
      roundBounds (computeGeoBounds env st.geometryColection) = st.prevGeoBounds)
    (h2 : d.geometries = true →
      roundBounds (computeGeoBounds env env.seriesGeometries) = st.prevGeoBounds) :
    (prepareFit st d env).dispatchBounds = st.dispatchBounds ∧
    (prepareFit st d env).prevGeoBounds = st.prevGeoBounds := by
  rcases d with ⟨dp, dg, ds, dz, dt1, dt2, dr⟩
  simp only at h1 h2
  have key : ∀ dp' dg' : Bool,
      (dp' = true → roundBounds (computeGeoBounds env st.geometryColection) = st.prevGeoBounds) →
      (dg' = true → roundBounds (computeGeoBounds env env.seriesGeometries) = st.prevGeoBounds) →
      (prepareFit st ⟨dp', dg', false, dz, dt1, dt2, dr⟩ env).dispatchBounds = st.dispatchBounds ∧
      (prepareFit st ⟨dp', dg', false, dz, dt1, dt2, dr⟩ env).prevGeoBounds = st.prevGeoBounds := by
    intro dp' dg' k1 k2
    cases dp' <;> cases dg'
    · simp [prepareFit]
    · have s2 := fitMap_no_arm { st with geometryColection := env.seriesGeometries } env
        (by simpa using k2 rfl)
      simpa [prepareFit] using s2
    · have s1 := fitMap_no_arm st env (k1 rfl)
      simpa [prepareFit] using s1
    · have s1 := fitMap_no_arm st env (k1 rfl)
      have s2 := fitMap_no_arm { fitMap st env with geometryColection := env.seriesGeometries } env
        (by simpa [s1.2] using k2 rfl)
      simp only [prepareFit, if_true, if_false]
      constructor
      · simpa [s1.1] using s2.1
      · simpa [s1.2] using s2.2
  cases ds
  · exact key dp dg h1 h2
  · rw [prepareFit_size_split, sizeStep_flag, sizeStep_prev]
    exact key dp dg h1 h2

/-- While the aggregate collection is (and stays) empty, the fit phase
leaves the dispatch flag, the previous-bounds snapshot, and the (empty)
collection unchanged. -/
theorem prepareFit_empty (st : MapChart) (d : Dirty) (env : Env)
    (hcoll : st.geometryColection = []) (hser : env.seriesGeometries = []) :
    (prepareFit st d env).dispatchBounds = st.dispatchBounds ∧
    (prepareFit st d env).prevGeoBounds = st.prevGeoBounds ∧
    (prepareFit st d env).geometryColection = [] := by
  rcases d with ⟨dp, dg, ds, dz, dt1, dt2, dr⟩
  have key : ∀ dp' dg' : Bool,
      (prepareFit st ⟨dp', dg', false, dz, dt1, dt2, dr⟩ env).dispatchBounds = st.dispatchBounds ∧
      (prepareFit st ⟨dp', dg', false, dz, dt1, dt2, dr⟩ env).prevGeoBounds = st.prevGeoBounds ∧
      (prepareFit st ⟨dp', dg', false, dz, dt1, dt2, dr⟩ env).geometryColection = [] := by
    intro dp' dg'
    cases dp' <;> cases dg'
    · simp [prepareFit, hcoll]
    · have s2 := fitMap_empty { st with geometryColection := env.seriesGeometries } env
        (by simpa using hser)
      simp only [prepareFit]
      norm_num
      refine ⟨?_, ?_, ?_⟩
      · simpa using s2.1
      · simpa using s2.2.1
      · rw [fitMap_coll]
        simpa using hser
    · have s1 := fitMap_empty st env hcoll
      simp only [prepareFit]
      norm_num
      refine ⟨s1.1, s1.2.1, ?_⟩
      rw [fitMap_coll]
      exact hcoll
    · have s1 := fitMap_empty st env hcoll
      have s2 := fitMap_empty { fitMap st env with geometryColection := env.seriesGeometries } env
        (by simpa using hser)
      simp only [prepareFit]
      norm_num
      refine ⟨?_, ?_, ?_⟩
      · simpa [s1.1] using s2.1
      · simpa [s1.2.1] using s2.2.1
      · rw [fitMap_coll]
        simpa using hser
  cases ds
  · exact key dp dg
  · rw [prepareFit_size_split, sizeStep_flag, sizeStep_prev, sizeStep_coll]
    exact key dp dg

/-- The event a pass dispatches is determined by the fit phase: the armed
flag and the enabled check. -/
theorem prepare_dispatch_eq (st : MapChart) (d : Dirty) (env : Env) :
    (prepareChildren st d env).2 =
      ((prepareFit st d env).dispatchBounds && (prepareFit st d env).eventsEnabled) := by
  simp [prepareChildren, applyDirty_flag, applyDirty_enabled]

/-- Every pass leaves the dispatch flag cleared. -/
theorem prepare_pass_flag (st : MapChart) (d : Dirty) (env : Env) :
    (prepareChildren st d env).1.dispatchBounds = false := by
  simp [prepareChildren]

/-- With the size flag set, the fit phase is the size branch applied to the
first two stages. -/
theorem prepareFit_size_on (st : MapChart) (d : Dirty) (env : Env) (h : d.size = true) :
    prepareFit st d env = sizeStep (prepareFit st { d with size := false } env) env := by
  rcases d with ⟨dp, dg, ds, dz, dt1, dt2, dr⟩
  simp only at h
  subst h
  simp [prepareFit]

/-- Whenever the fit phase ran any of its branches, `mapScale` ends at the
fit scale of the final aggregate collection and the (unchanged) inner
viewport. -/
theorem prepareFit_mapScale_fit (st : MapChart) (d : Dirty) (env : Env)
    (h : d.projection = true ∨ d.geometries = true ∨ d.size = true) :
    (prepareFit st d env).mapScale =
      env.fitScale ((prepareFit st d env).geometryColection) st.innerW st.innerH := by
  rcases d with ⟨dp, dg, ds, dz, dt1, dt2, dr⟩
  simp only at h
  cases dp <;> cases dg <;> cases ds <;>
    simp_all [prepareFit, fitMap_mapScale, fitMap_coll, fitMap_innerW, fitMap_innerH,
      sizeStep_mapScale, sizeStep_coll, sizeStep_innerW, sizeStep_innerH]

/-- C5 (amended), for every reconciliation pass: (1) when the `zoomLevel`
setting or the viewport size/padding is dirty, the pass leaves the
projection's scale equal to the stored base fit scale (`mapScale`) times
the `zoomLevel` setting; (2) `mapScale` is never recomputed when only
zoomLevel/translate/rotation change; (3) `mapScale` is recomputed (to the
fit scale of the final aggregate collection) whenever the projection, the
geometry collection or the viewport is dirty.  (A pass in which only the
projection or the geometries are dirty leaves the projection at the bare
fit scale — `_fitMap` does not re-multiply by `zoomLevel` — so the scale
invariant as originally claimed fails there; see the counterexample.) -/
theorem claim_C5 (st : MapChart) (d : Dirty) (env : Env) :
    ((d.zoomLevel = true ∨ d.size = true) →
      (prepareChildren st d env).1.proj.scale =
        (prepareChildren st d env).1.mapScale *
          (((prepareChildren st d env).1.zoomLevel).getD 1)) ∧
    (d.projection = false → d.geometries = false → d.size = false →
      (prepareChildren st d env).1.mapScale = st.mapScale) ∧
    ((d.projection = true ∨ d.geometries = true ∨ d.size = true) →
      (prepareChildren st d env).1.mapScale =
        env.fitScale ((prepareChildren st d env).1.geometryColection) st.innerW st.innerH) := by
  refine ⟨?_, ?_, ?_⟩
  · intro hz
    cases hdz : d.zoomLevel with
    | true =>
      simp [prepareChildren, applyDirty_scale_zoom _ _ hdz, applyDirty_mapScale,
        applyDirty_zoomLevel]
    | false =>
      have hds : d.size = true := by
        rcases hz with h | h
        · rw [h] at hdz
          cases hdz
        · exact h
      have key : (prepareFit st d env).proj.scale =
          (prepareFit st d env).mapScale * (((prepareFit st d env).zoomLevel).getD 1) := by
        rw [prepareFit_size_on st d env hds, sizeStep_projScale, sizeStep_mapScale,
          sizeStep_zoomLevel]
      simp [prepareChildren, applyDirty_scale_clean, hdz, applyDirty_mapScale,
        applyDirty_zoomLevel, key]
  · intro hp hg hs
    simp [prepareChildren, applyDirty_mapScale, prepareFit_clean st d env hp hg hs]
  · intro h3
    simp [prepareChildren, applyDirty_mapScale, applyDirty_coll,
      prepareFit_mapScale_fit st d env h3]

/-- A dirty set with only `zoomLevel` set. -/
def zoomOnlyDirty : Dirty :=
  ⟨false, false, false, true, false, false, false⟩

/-- A dirty set with only the geometries flag set. -/
def geomOnlyDirty : Dirty :=
  ⟨false, true, false, false, false, false, false⟩

/-- Every flag dirty. -/
def allDirty : Dirty :=
  ⟨true, true, true, true, true, true, true⟩

/-- The baseline chart with `zoomLevel 2` and a deliberately out-of-sync
projection scale. -/
def syncChart : MapChart :=
  { baseChart with
    zoomLevel := some 2
    proj := { idProj with scale := 7, translate := ⟨400, 300⟩ } }

/-- An environment whose fit produces scale 5 and whose series expose one
geometry. -/
def fitEnv : Env :=
  { envTrivial with
    fitScale := fun _ _ _ => 5
    seriesGeometries := [⟨0⟩] }

/-- C5 witness: a pass with only `zoomLevel` dirty restores
`scale = mapScale * zoomLevel = 1 * 2` and leaves `mapScale` untouched,
while a pass with only the geometries dirty recomputes `mapScale` to the
fit scale 5. -/
theorem claim_C5_witness :
    (prepareChildren syncChart zoomOnlyDirty envTrivial).1.proj.scale = 2 ∧
    (prepareChildren syncChart zoomOnlyDirty envTrivial).1.mapScale = 1 ∧
    (prepareChildren { baseChart with zoomLevel := some 2 } geomOnlyDirty fitEnv).1.mapScale = 5 := by
  have h := claim_C5 syncChart zoomOnlyDirty envTrivial
  have h2 := claim_C5 { baseChart with zoomLevel := some 2 } geomOnlyDirty fitEnv
  refine ⟨?_, ?_, ?_⟩
  · rw [h.1 (Or.inl rfl), h.2.1 rfl rfl rfl]
    norm_num [prepareChildren, prepareFit, applyDirtySettings, zoomOnlyDirty,
      syncChart, baseChart]
  · rw [h.2.1 rfl rfl rfl]
    norm_num [syncChart, baseChart]
  · rw [h2.2.2 (Or.inr (Or.inl rfl))]
    norm_num [fitEnv, envTrivial]

/-- C5 counterexample: a pass with only the geometries dirty at
`zoomLevel 2` refits (`mapScale` becomes 5) but leaves the projection at
the bare fit scale 5 instead of `mapScale * zoomLevel = 10`. -/
theorem claim_C5_cex :
    (prepareChildren { baseChart with zoomLevel := some 2 } geomOnlyDirty fitEnv).1.proj.scale ≠
      (prepareChildren { baseChart with zoomLevel := some 2 } geomOnlyDirty fitEnv).1.mapScale *
        (((prepareChildren { baseChart with zoomLevel := some 2 } geomOnlyDirty fitEnv).1.zoomLevel).getD 1) := by
  norm_num [prepareChildren, prepareFit, applyDirtySettings, fitMap, geomOnlyDirty,
    fitEnv, envTrivial, baseChart, computeGeoBounds, getGeoBounds, roundBounds, round3]

/-- C6: the `geoboundschanged` event is the reconciliation pass's single
`Bool` output, so it is dispatched at most once per pass.  First conjunct:
a pass started with a clear dispatch flag dispatches nothing when each
rounded-bounds computation it actually performs (over the incoming
collection if the projection is dirty, over the series' aggregate if the
geometries are dirty) equals the bounds recorded at the previous dispatch —
so a dispatch happens only when some rounded bounds differ from that
record.  Second conjunct, unconditionally: after any pass whatsoever
(dispatching or not), an immediately following pass with nothing dirty
dispatches nothing. -/
theorem claim_C6 (st : MapChart) (d : Dirty) (env env2 : Env) :
    (st.dispatchBounds = false →
      (d.projection = true →
        roundBounds (computeGeoBounds env st.geometryColection) = st.prevGeoBounds) →
      (d.geometries = true →
        roundBounds (computeGeoBounds env env.seriesGeometries) = st.prevGeoBounds) →
      (prepareChildren st d env).2 = false) ∧
    (prepareChildren (prepareChildren st d env).1 cleanDirty env2).2 = false := by
  constructor
  · intro hflag h1 h2
    rw [prepare_dispatch_eq, (prepareFit_no_arm st d env h1 h2).1, hflag]
    simp
  · rw [prepare_dispatch_eq, prepareFit_clean _ cleanDirty env2 rfl rfl rfl,
      prepare_pass_flag]
    simp

/-- A chart whose recorded previous bounds differ from the (zero) bounds
the trivial environment computes, so the next fitting pass dispatches. -/
def staleChart : MapChart :=
  { baseChart with prevGeoBounds := ⟨5, 5, 5, 5⟩ }

/-- An environment whose series expose one geometry. -/
def oneGeomEnv : Env :=
  { envTrivial with seriesGeometries := [⟨0⟩] }

/-- C6 witness: a pass with every flag dirty on the baseline chart (whose
bounds round to the recorded previous bounds) dispatches nothing; a
geometries-dirty pass on a chart with stale recorded bounds does dispatch,
and the clean pass immediately after that dispatching pass dispatches
nothing. -/
theorem claim_C6_witness :
    (prepareChildren baseChart allDirty envTrivial).2 = false ∧
    (prepareChildren staleChart geomOnlyDirty oneGeomEnv).2 = true ∧
    (prepareChildren (prepareChildren staleChart geomOnlyDirty oneGeomEnv).1 cleanDirty oneGeomEnv).2 = false := by
  refine ⟨?_, ?_, ?_⟩
  · exact (claim_C6 baseChart allDirty envTrivial envTrivial).1 rfl
      (fun _ => by norm_num [computeGeoBounds, getGeoBounds, roundBounds, round3,
        envTrivial, baseChart])
      (fun _ => by norm_num [computeGeoBounds, getGeoBounds, roundBounds, round3,
        envTrivial, baseChart])
  · norm_num [prepareChildren, prepareFit, applyDirtySettings, fitMap, geomOnlyDirty,
      staleChart, oneGeomEnv, envTrivial, baseChart, computeGeoBounds, getGeoBounds,
      roundBounds, round3]
  · exact (claim_C6 staleChart geomOnlyDirty oneGeomEnv oneGeomEnv).2

/-- A single pass over an empty aggregate collection: no dispatch beyond a
previously armed flag, the collection stays empty, the flag ends cleared
and the previous-bounds snapshot is untouched. -/
theorem prepare_empty (st : MapChart) (d : Dirty) (env : Env)
    (hcoll : st.geometryColection = []) (hser : env.seriesGeometries = []) :
    (prepareChildren st d env).2 = (st.dispatchBounds && st.eventsEnabled) ∧
    (prepareChildren st d env).1.geometryColection = [] ∧
    (prepareChildren st d env).1.dispatchBounds = false ∧
    (prepareChildren st d env).1.prevGeoBounds = st.prevGeoBounds := by
  obtain ⟨hf, hp, hc⟩ := prepareFit_empty st d env hcoll hser
  refine ⟨?_, ?_, prepare_pass_flag st d env, ?_⟩
  · rw [prepare_dispatch_eq, hf, (prepareFit_frame st d env).2.2.2]
  · simp [prepareChildren, applyDirty_coll, hc]
  · simp [prepareChildren, applyDirty_prev, hp]

/-- C10: while the aggregated geometry collection is empty (the chart's
collection starts empty and every pass's series expose no geometries) and
the dispatch flag starts clear, no reconciliation pass in any sequence ever
dispatches `geoboundschanged`, and the previous-bounds snapshot is never
updated. -/
theorem claim_C10 (st : MapChart) (steps : List (Dirty × Env))
    (hcoll : st.geometryColection = []) (hflag : st.dispatchBounds = false)
    (hser : ∀ pe ∈ steps, (pe.2 : Env).seriesGeometries = []) :
    (∀ b ∈ (runPasses st steps).2, b = false) ∧
    (runPasses st steps).1.prevGeoBounds = st.prevGeoBounds ∧
    (runPasses st steps).1.geometryColection = [] := by
  induction steps generalizing st with
  | nil =>
    refine ⟨?_, rfl, hcoll⟩
    intro b hb
    simp [runPasses] at hb
  | cons pe rest ih =>
    obtain ⟨d, env⟩ := pe
    have hser1 : env.seriesGeometries = [] := hser _ (List.mem_cons_self _ _)
    have hrest : ∀ pe ∈ rest, (pe.2 : Env).seriesGeometries = [] :=
      fun x hx => hser _ (List.mem_cons_of_mem _ hx)
    obtain ⟨hdisp, hc, hf, hp⟩ := prepare_empty st d env hcoll hser1
    obtain ⟨ih1, ih2, ih3⟩ := ih (prepareChildren st d env).1 hc hf hrest
    refine ⟨?_, ?_, ?_⟩
    · intro b hb
      simp only [runPasses, List.mem_cons] at hb
      rcases hb with hb | hb
      · rw [hb, hdisp, hflag]
        simp
      · exact ih1 b hb
    · simpa [runPasses] using ih2.trans hp
    · simpa [runPasses] using ih3

/-- C10 witness: two passes (everything dirty, then nothing dirty) over an
empty collection dispatch nothing and leave the previous bounds alone. -/
theorem claim_C10_witness :
    (∀ b ∈ (runPasses baseChart [(allDirty, envTrivial), (cleanDirty, envTrivial)]).2, b = false) ∧
    (runPasses baseChart [(allDirty, envTrivial), (cleanDirty, envTrivial)]).1.prevGeoBounds =
      baseChart.prevGeoBounds ∧
    (runPasses baseChart [(allDirty, envTrivial), (cleanDirty, envTrivial)]).1.geometryColection = [] :=
  claim_C10 baseChart [(allDirty, envTrivial), (cleanDirty, envTrivial)] rfl rfl
    (by simp [envTrivial])

/-- C8: antimeridian normalization.  `computeGeoBounds` substitutes the
full `[-180, 180]` longitude range whenever the naive rectangle has
`right < left`, and `zoomToGeoBounds` applies the same substitution to its
input bounds before any further computation; neither propagates the
condition as an error (both are total). -/
theorem claim_C8 (st : MapChart) (env : Env) (gb : GeoBounds) (coll : List Geometry)
    (hgb : gb.right < gb.left)
    (hnaive : (env.naiveGeoBounds coll).right < (env.naiveGeoBounds coll).left) :
    (computeGeoBounds env coll).left = -180 ∧
    (computeGeoBounds env coll).right = 180 ∧
    zoomToGeoBounds st env gb = zoomToGeoBounds st env ⟨-180, 180, gb.top, gb.bottom⟩ := by
  refine ⟨?_, ?_, ?_⟩
  · simp [computeGeoBounds, getGeoBounds, hnaive]
  · simp [computeGeoBounds, getGeoBounds, hnaive]
  · have hR : ¬ ((⟨-180, 180, gb.top, gb.bottom⟩ : GeoBounds).right <
        (⟨-180, 180, gb.top, gb.bottom⟩ : GeoBounds).left) := by norm_num
    rw [zoomToGeoBounds, zoomToGeoBounds, if_pos hgb, if_neg hR]

/-- An environment whose naive geographic bounds wrap the antimeridian. -/
def antiEnv : Env :=
  { envTrivial with naiveGeoBounds := fun _ => ⟨170, -170, 10, -10⟩ }

/-- C8 witness: naive bounds with right edge (-170) west of the left edge
(170) come back normalized to the full longitude range, and
`zoomToGeoBounds` on such input behaves as on the substituted range. -/
theorem claim_C8_witness :
    (computeGeoBounds antiEnv []).left = -180 ∧
    (computeGeoBounds antiEnv []).right = 180 ∧
    zoomToGeoBounds baseChart antiEnv ⟨170, -170, 10, -10⟩ =
      zoomToGeoBounds baseChart antiEnv ⟨-180, 180, 10, -10⟩ := by
  have h := claim_C8 baseChart antiEnv ⟨170, -170, 10, -10⟩ []
    (by norm_num) (by norm_num [antiEnv])
  exact ⟨h.1, h.2.1, by simpa using h.2.2⟩

end MapSpec
